import Mathlib

/-!
Verification of the natural-language specification of `manage_pg_server.c`
(GVM management layer: Postgres server-side SQL functions) against a shallow
embedding of its code in Lean 4.

Embedding conventions:
* A nullable SQL argument is an `Option` value; `PG_RETURN_NULL` is `none`.
* `float8` values are modelled as rationals (`ℚ`): the C code only compares
  them (`<=`, `==`, `>=`), never computes with them, and on non-NaN doubles
  the IEEE comparisons agree with the ordered-field comparisons.
* Machine integers are `Int` with explicit reduction modulo `2 ^ 32` where
  the C code truncates (`int32 ret = ...`).
* Functions that the file calls but that live outside this translation unit
  (`manage_count_hosts_max`, `hosts_str_contains`,
  `icalendar_next_time_from_string`, `g_regex_match_simple`) are either
  modelled from the specification (their doc comments say so) or abstracted
  as parameters.
-/

/-! ## Severity threshold predicate: `sql_severity_matches_ov` -/

/-- Shallow embedding of `sql_severity_matches_ov` (manage_pg_server.c,
lines 239–257).  `arg0` is the first SQL argument (the severity value),
`arg1` the second (the override severity / threshold); `none` models a SQL
NULL argument.  The C code returns false when argument 0 is NULL, true when
argument 1 is NULL, and otherwise branches on whether `arg_one <= 0`:
if so it returns `arg_one == arg_two`, else `arg_one >= arg_two`. -/
def sql_severity_matches_ov (arg0 arg1 : Option ℚ) : Bool :=
  match arg0 with
  | none => false
  | some arg_one =>
    match arg1 with
    | none => true
    | some arg_two =>
      if arg_one ≤ 0 then decide (arg_one = arg_two)
      else decide (arg_one ≥ arg_two)

/-! ## Configuration lookup: `get_max_hosts` and C `atoi` -/

/-- Accumulate leading decimal digits, as the digit loop of C `atoi`
(equivalently `strtol` base 10) does: stop at the first non-digit. -/
def atoiLoop : List Char → Nat → Nat
  | [], acc => acc
  | c :: rest, acc =>
    if c.isDigit then atoiLoop rest (acc * 10 + (c.toNat - 48)) else acc

/-- C `isspace` for the default locale: space, tab, newline, vertical tab,
form feed, carriage return. -/
def isSpaceC (c : Char) : Bool :=
  c = ' ' ∨ c = '\t' ∨ c = '\n' ∨ c = '\x0b' ∨ c = '\x0c' ∨ c = '\r'

/-- C `atoi` on a character list: skip leading whitespace, then an optional
sign, then consume leading decimal digits; with no digits the result is 0. -/
def atoiChars (cs : List Char) : Int :=
  match cs.dropWhile isSpaceC with
  | '-' :: rest => -(atoiLoop rest 0 : Int)
  | '+' :: rest => (atoiLoop rest 0 : Int)
  | rest => (atoiLoop rest 0 : Int)

/-- C `atoi` on a string. -/
def atoi (s : String) : Int := atoiChars s.data

/-- Shallow embedding of `get_max_hosts` (manage_pg_server.c, lines 63–86).
`stored` is the `meta` table's `max_hosts` value: `none` when the row is
absent (or its value is NULL), in which case the SQL `coalesce` supplies the
literal string `"4095"`.  The resulting cell is then parsed with `atoi`. -/
def get_max_hosts (stored : Option String) : Int :=
  atoi (stored.getD "4095")

/-! ## Host expressions and the host range evaluator -/

/-- Split a character list at every occurrence of `sep` (an accumulator
holds the current token in reverse). -/
def splitOnCharAux (sep : Char) : List Char → List Char → List (List Char)
  | [], acc => [acc.reverse]
  | c :: rest, acc =>
    if c = sep then acc.reverse :: splitOnCharAux sep rest []
    else splitOnCharAux sep rest (c :: acc)

/-- Drop leading and trailing whitespace from a token. -/
def trimChars (cs : List Char) : List Char :=
  ((cs.dropWhile isSpaceC).reverse.dropWhile isSpaceC).reverse

/-- Modelled from the spec: the Host Expression Parser (spec §4.1) lives in
gvm-libs (`<gvm/base/hosts.h>`), not in this repository's src.  Per the
spec it splits the expression on commas, trims whitespace and classifies
each token; atoms are modelled as opaque hosts (the spec's hostname atoms
are opaque, exact-match units) and empty tokens denote no host. -/
def expandHosts (s : String) : List String :=
  (((splitOnCharAux ',' s.data []).map trimChars).filter
      (fun a => !a.isEmpty)).map (fun a => String.mk a)

/-- Modelled from the spec: `hosts_str_contains` is declared in gvm-libs,
not in this repository's src.  Per spec §4.2, `contains` parses the
expression and tests membership of the candidate, short-circuiting on the
first matching atom; the cap bounds work but never changes the verdict
(so it does not appear in the result). -/
def hosts_str_contains (hosts find_host : String) (_max_hosts : Int) : Bool :=
  (expandHosts hosts).contains find_host

/-- Modelled from the spec: the counting loop of `manage_count_hosts_max`
(defined in `manage_utils.c`, not under src).  Per spec §4.2, enumeration
proceeds host by host in order, maintaining a deduplication set (`seen`)
and skipping hosts in the exclude list; it stops the instant the running
distinct count reaches the cap. -/
def countHostsWith (exclude : List String) (cap : Nat) :
    List String → List String → Nat → Nat
  | [], _, count => count
  | h :: rest, seen, count =>
    if cap ≤ count then count
    else if h ∈ seen ∨ h ∈ exclude then
      countHostsWith exclude cap rest seen count
    else
      countHostsWith exclude cap rest (h :: seen) (count + 1)

/-- Modelled from the spec: `manage_count_hosts_max` (manage_utils.c, not
under src) counts the distinct hosts of `hosts` that are not in `exclude`,
capped at `max_hosts` (spec §4.2, `count`). -/
def manage_count_hosts_max (hosts exclude : String) (max_hosts : Nat) : Nat :=
  countHostsWith (expandHosts exclude) max_hosts (expandHosts hosts) [] 0

/-- The true distinct count: how many distinct hosts the expression denotes
that the exclude expression does not. -/
def trueDistinctCount (hosts exclude : String) : Nat :=
  ((expandHosts hosts).toFinset \ (expandHosts exclude).toFinset).card

/-- Shallow embedding of `sql_hosts_contains` (manage_pg_server.c, lines
100–129).  A NULL in either argument returns false; otherwise the result
is `hosts_str_contains` with the cap resolved by `get_max_hosts` from the
configuration state `stored`. -/
def sql_hosts_contains (arg0 arg1 : Option String) (stored : Option String) :
    Bool :=
  match arg0, arg1 with
  | some hosts, some find_host =>
    hosts_str_contains hosts find_host (get_max_hosts stored)
  | _, _ => false

/-- Shallow embedding of `sql_max_hosts` (manage_pg_server.c, lines
194–225).  A NULL first argument returns 0; a NULL second argument is
replaced by the empty string; otherwise the result is
`manage_count_hosts_max` with the cap resolved by `get_max_hosts`. -/
def sql_max_hosts (arg0 arg1 : Option String) (stored : Option String) :
    Nat :=
  match arg0 with
  | none => 0
  | some hosts =>
    let exclude :=
      match arg1 with
      | none => ""
      | some e => e
    manage_count_hosts_max hosts exclude (get_max_hosts stored).toNat

/-! ## Recurrence scheduling: `sql_next_time_ical` -/

/-- Parse a non-empty all-digit token as a natural number. -/
def parseNatChars (cs : List Char) : Option Nat :=
  if cs ≠ [] ∧ cs.all Char.isDigit then some (atoiLoop cs 0) else none

/-- Parse an optionally signed decimal integer token. -/
def parseIntChars : List Char → Option Int
  | '-' :: rest => (parseNatChars rest).map (fun n => -(n : Int))
  | cs => (parseNatChars cs).map (fun n => (n : Int))

/-- Modelled from the spec: the Recurrence Descriptor of spec §3 — a start
instant plus a recurrence component's period (frequency × interval, in
seconds) and an optional occurrence-count bound.  The Recurrence Grammar
Parser and the external calendar library it feeds are not in this
repository's src. -/
structure RecurrenceDescriptor where
  start : Int
  period : Int
  bound : Option Nat

/-- Modelled from the spec: the Recurrence Grammar Parser (spec §4.3) lives
in the external calendar code, not under src.  The spec fixes only that a
recurrence text denotes a start instant plus recurrence components and
that an unparseable text yields no descriptor; the concrete token format
here is `start;period` or `start;period;count` with decimal integer
fields. -/
def parseRecurrence (s : String) : Option RecurrenceDescriptor :=
  match (splitOnCharAux ';' s.data []).map parseIntChars with
  | [some st, some p] => some ⟨st, p, none⟩
  | [some st, some p, some c] =>
    if 0 ≤ c then some ⟨st, p, some c.toNat⟩ else none
  | _ => none

/-- Modelled from the spec: the Recurrence Scheduler (spec §4.4).  The
number of elapsed periods is computed by integer division, never by
iterative stepping; the smallest occurrence strictly after `now` is taken,
`periods_offset` advances the occurrence sequence by that many further
periods, and a bound exhausted before the requested position yields the
none-sentinel. -/
def nextOccurrence (d : RecurrenceDescriptor) (now : Int)
    (periods_offset : Int) : Option Int :=
  if d.period ≤ 0 then none
  else
    let k : Int := if now < d.start then 0 else (now - d.start) / d.period + 1
    let pos := k + periods_offset
    if pos < 0 then none
    else
      match d.bound with
      | some c =>
        if pos < (c : Int) then some (d.start + pos * d.period) else none
      | none => some (d.start + pos * d.period)

/-- Modelled from the spec: `icalendar_next_time_from_string`
(manage_utils.c, not under src) parses the recurrence text and returns the
next occurrence as an epoch instant, with 0 as the none-sentinel for an
invalid recurrence or an exhausted schedule (spec §4.3, §4.4 and §6).  The
reference instant `now` (read from the clock inside the C function) is an
explicit argument here; the timezone is metadata whose interpretation the
spec leaves to the external calendar library, so it does not enter the
arithmetic. -/
def icalendar_next_time_from_string (ical_string : String)
    (_zone : Option String) (periods_offset : Int) (now : Int) : Int :=
  match parseRecurrence ical_string with
  | none => 0
  | some d =>
    match nextOccurrence d now periods_offset with
    | none => 0
    | some t => t

/-- Truncation of an unbounded integer to a signed 32-bit value, as the C
assignment `int32 ret = icalendar_next_time_from_string (...)`
performs. -/
def toInt32 (t : Int) : Int := (t + 2 ^ 31) % 2 ^ 32 - 2 ^ 31

/-- Shallow embedding of `sql_next_time_ical` (manage_pg_server.c, lines
143–180).  Arguments 0 (recurrence text) and 1 (timezone) are guarded by
`PG_NARGS`/`PG_ARGISNULL` checks, so `none` covers both an absent and a
NULL argument.  Argument 2 (the periods offset) is read with
`PG_GETARG_INT32 (2)` and no such guard, so the embedding carries the
argument slot's raw contents `arg2_slot` next to its null flag
`arg2_null`: the code consumes the raw slot contents unconditionally,
ignoring the flag.  The result is the external next-occurrence instant
truncated to `int32`. -/
def sql_next_time_ical (arg0 arg1 : Option String) (_arg2_null : Bool)
    (arg2_slot : Int) (now : Int) : Option Int :=
  match arg0 with
  | none => none
  | some ical_string =>
    let zone := arg1
    let periods_offset := arg2_slot
    some (toInt32
      (icalendar_next_time_from_string ical_string zone periods_offset now))

/-! ## Regular-expression predicate: `sql_regexp` -/

/-- Shallow embedding of `sql_regexp` (manage_pg_server.c, lines 271–297),
parametric in the external matcher `g_regex_match_simple` (a glib
function whose first argument is the pattern and whose second is the
subject).  A NULL in either SQL argument returns false; otherwise the
verdict is the matcher's, called with the regular expression (argument 1)
as the pattern and the string (argument 0) as the subject. -/
def sql_regexp (g_regex_match_simple : String → String → Bool)
    (arg0 arg1 : Option String) : Bool :=
  match arg0, arg1 with
  | some string, some regexp => g_regex_match_simple regexp string
  | _, _ => false

/-! ## Theorems: severity predicate (claims C1 and C8) -/

/-- Claim C1, counterexample.  The claim asserts that
`matchesOverride(5, -1)` is false (because the threshold `-1` is
non-positive and `5 ≠ -1`).  The code branches on the sign of the *value*
(the first argument), not the threshold: since `5 > 0` it evaluates
`5 ≥ -1`, which is true. -/
theorem C1_counterexample :
    sql_severity_matches_ov (some 5) (some (-1)) = true := by
  decide

/-- Claim C1, amended.  For both arguments present, the predicate branches
on the sign of the value (first argument), not the threshold: when the
value is non-positive the result is true exactly when value = threshold,
and when the value is positive the result is true exactly when
value ≥ threshold; consequently `matchesOverride(v, 0)` is true iff
`v ≥ 0`. -/
theorem C1_theorem (v t : ℚ) :
    (v ≤ 0 → (sql_severity_matches_ov (some v) (some t) = true ↔ v = t)) ∧
    (0 < v → (sql_severity_matches_ov (some v) (some t) = true ↔ t ≤ v)) ∧
    (sql_severity_matches_ov (some v) (some 0) = true ↔ 0 ≤ v) := by
  refine ⟨fun h => ?_, fun h => ?_, ?_⟩
  · show (if v ≤ 0 then decide (v = t) else decide (v ≥ t)) = true ↔ v = t
    rw [if_pos h, decide_eq_true_eq]
  · show (if v ≤ 0 then decide (v = t) else decide (v ≥ t)) = true ↔ t ≤ v
    rw [if_neg (not_le.mpr h), decide_eq_true_eq]
  · rcases le_or_lt v 0 with h | h
    · show (if v ≤ 0 then decide (v = 0) else decide (v ≥ 0)) = true ↔ 0 ≤ v
      rw [if_pos h, decide_eq_true_eq]
      exact ⟨fun hv => hv.ge, fun hv => le_antisymm h hv⟩
    · show (if v ≤ 0 then decide (v = 0) else decide (v ≥ 0)) = true ↔ 0 ≤ v
      rw [if_neg (not_le.mpr h), decide_eq_true_eq]

/-- Claim C1, witness: the amended theorem applied at value 5,
threshold −1 (the claim's own example input). -/
theorem C1_witness :
    (0:ℚ) < 5 ∧ sql_severity_matches_ov (some 5) (some (-1)) = true :=
  ⟨by norm_num,
   ((C1_theorem 5 (-1)).2.1 (by norm_num)).mpr (by norm_num)⟩

/-- Claim C8: a NULL value argument yields false (whatever the threshold
argument is), and a present value with a NULL threshold argument yields
true (whatever the value is). -/
theorem C8_theorem :
    (∀ t : Option ℚ, sql_severity_matches_ov none t = false) ∧
    (∀ v : ℚ, sql_severity_matches_ov (some v) none = true) :=
  ⟨fun _ => rfl, fun _ => rfl⟩

/-! ## Theorems: configuration lookup (claim C3) -/

/-- Claim C3, counterexample.  The claim asserts that a non-numeric stored
value also yields 4095; in the code `atoi` of a non-numeric cell returns 0,
so `get_max_hosts` returns 0, not 4095. -/
theorem C3_counterexample :
    get_max_hosts (some "not a number") = 0 ∧
    get_max_hosts (some "not a number") ≠ 4095 := by
  constructor <;> decide

/-- Claim C3, amended.  The resolved cap is 4095 when the configuration
value is absent; when a value is stored, it is parsed with C `atoi`
semantics (optional whitespace and sign, then leading decimal digits), so
a numeric value parses to itself and a non-numeric value yields 0, not
4095. -/
theorem C3_theorem :
    get_max_hosts none = 4095 ∧
    (∀ s : String, get_max_hosts (some s) = atoi s) ∧
    get_max_hosts (some "123") = 123 ∧
    get_max_hosts (some "  -7") = -7 ∧
    get_max_hosts (some "abc") = 0 := by
  refine ⟨by decide, fun s => rfl, by decide, by decide, by decide⟩

/-! ## Theorems: host range evaluator (claims C2, C5, C6) -/

/-- Invariant of the capped counting loop: starting from a dedup set `seen`
and a running count `count ≤ cap`, the loop returns
`min cap (count + fresh)`, where `fresh` is the number of distinct hosts in
the remaining list that are neither already seen nor excluded. -/
theorem countHostsWith_eq (exclude : List String) (cap : Nat)
    (l : List String) :
    ∀ (seen : List String) (count : Nat), count ≤ cap →
      countHostsWith exclude cap l seen count
        = min cap
            (count +
              (l.toFinset \ (seen.toFinset ∪ exclude.toFinset)).card) := by
  induction l with
  | nil =>
    intro seen count hle
    simp [countHostsWith]
    omega
  | cons h t ih =>
    intro seen count hle
    rcases Nat.lt_or_ge count cap with hlt | hge
    · have hstop : ¬ cap ≤ count := Nat.not_le.mpr hlt
      by_cases hmem : h ∈ seen ∨ h ∈ exclude
      · have hU : h ∈ seen.toFinset ∪ exclude.toFinset := by
          rcases hmem with hm | hm
          · exact Finset.mem_union_left _ (List.mem_toFinset.mpr hm)
          · exact Finset.mem_union_right _ (List.mem_toFinset.mpr hm)
        have hstep : countHostsWith exclude cap (h :: t) seen count
            = countHostsWith exclude cap t seen count := by
          simp [countHostsWith, hstop, hmem]
        rw [hstep, ih seen count hle, List.toFinset_cons,
          Finset.insert_sdiff_of_mem _ hU]
      · have hU : h ∉ seen.toFinset ∪ exclude.toFinset := by
          simp only [Finset.mem_union, List.mem_toFinset]
          exact hmem
        have hstep : countHostsWith exclude cap (h :: t) seen count
            = countHostsWith exclude cap t (h :: seen) (count + 1) := by
          simp [countHostsWith, hstop, hmem]
        rw [hstep, ih (h :: seen) (count + 1) (Nat.succ_le_of_lt hlt),
          List.toFinset_cons, List.toFinset_cons, Finset.insert_union,
          Finset.sdiff_insert, Finset.insert_sdiff_of_not_mem _ hU]
        by_cases hmem2 :
            h ∈ t.toFinset \ (seen.toFinset ∪ exclude.toFinset)
        · rw [Finset.card_insert_of_mem hmem2,
            Finset.card_erase_of_mem hmem2]
          have hpos :
              1 ≤ (t.toFinset \ (seen.toFinset ∪ exclude.toFinset)).card :=
            Finset.card_pos.mpr ⟨h, hmem2⟩
          omega
        · rw [Finset.card_insert_of_not_mem hmem2,
            Finset.erase_eq_of_not_mem hmem2]
          omega
    · have hstep : countHostsWith exclude cap (h :: t) seen count = count := by
        simp [countHostsWith, hge]
      rw [hstep]
      omega

/-- Claim C2: for every host expression, exclude expression and cap, the
count operation returns `min cap (true distinct count of hosts of the
expression not in the exclude list)`; consequently it is monotonically
non-decreasing in the cap and never exceeds the cap. -/
theorem C2_theorem (hosts exclude : String) (cap : Nat) :
    manage_count_hosts_max hosts exclude cap
      = min cap (trueDistinctCount hosts exclude) ∧
    (∀ c₁ c₂ : Nat, c₁ ≤ c₂ →
      manage_count_hosts_max hosts exclude c₁
        ≤ manage_count_hosts_max hosts exclude c₂) ∧
    manage_count_hosts_max hosts exclude cap ≤ cap := by
  have key : ∀ c : Nat,
      manage_count_hosts_max hosts exclude c
        = min c (trueDistinctCount hosts exclude) := by
    intro c
    have h := countHostsWith_eq (expandHosts exclude) c (expandHosts hosts)
      [] 0 (Nat.zero_le c)
    simpa [manage_count_hosts_max, trueDistinctCount] using h
  refine ⟨key cap, fun c₁ c₂ hc => ?_, ?_⟩
  · rw [key c₁, key c₂]
    omega
  · rw [key cap]
    omega

/-- Claim C2, witness: the expression `"a,b,a"` (three atoms, two distinct)
with exclusion `"b"` has true distinct count 1; at cap 5 the count is 1,
and the count is monotone from cap 1 to cap 2. -/
theorem C2_witness :
    manage_count_hosts_max "a,b,a" "b" 5
      = min 5 (trueDistinctCount "a,b,a" "b") ∧
    manage_count_hosts_max "a,b,a" "b" 1
      ≤ manage_count_hosts_max "a,b,a" "b" 2 ∧
    manage_count_hosts_max "a,b,a" "b" 5 = 1 := by
  have h := C2_theorem "a,b,a" "b" 5
  exact ⟨h.1, h.2.1 1 2 (by decide), by decide⟩

/-- Claim C5: the host containment operation returns false, raising no
error, whenever either the expression argument or the candidate argument
is NULL. -/
theorem C5_theorem :
    (∀ (b stored : Option String), sql_hosts_contains none b stored = false) ∧
    (∀ (a stored : Option String), sql_hosts_contains a none stored = false) := by
  constructor
  · intro b stored
    cases b <;> rfl
  · intro a stored
    cases a <;> rfl

/-- Claim C6: a NULL expression argument makes the host count operation
return 0, and a NULL exclude argument is treated exactly as the empty
exclude expression. -/
theorem C6_theorem :
    (∀ (e stored : Option String), sql_max_hosts none e stored = 0) ∧
    (∀ (hosts : String) (stored : Option String),
      sql_max_hosts (some hosts) none stored
        = sql_max_hosts (some hosts) (some "") stored) :=
  ⟨fun _ _ => rfl, fun _ _ => rfl⟩

/-! ## Theorems: recurrence scheduling and regexp (claims C4, C7, C9, C10) -/

/-- Claim C4 (evaluating the code at the failing input): with the
periods-offset argument's null flag set, the result still follows the
argument slot's raw contents — here residues 0 and 5 give different
instants for the same logical call — so a NULL (or omitted) offset is not
treated as 0: `PG_GETARG_INT32 (2)` is read without the
`PG_NARGS`/`PG_ARGISNULL` guard that arguments 0 and 1 receive. -/
theorem C4_theorem :
    sql_next_time_ical (some "0;100") none true 0 0
      ≠ sql_next_time_ical (some "0;100") none true 5 0 := by
  decide

/-- Claim C7: a NULL (or absent) recurrence text yields the none-sentinel
(SQL NULL), never an error; a present recurrence text always yields an
instant value, namely the external next-occurrence instant truncated to
int32, which is the numeric none-sentinel 0 exactly when the text does
not parse or the schedule is exhausted. -/
theorem C7_theorem :
    (∀ (arg1 : Option String) (nul : Bool) (slot now : Int),
      sql_next_time_ical none arg1 nul slot now = none) ∧
    (∀ (s : String) (arg1 : Option String) (nul : Bool) (slot now : Int),
      sql_next_time_ical (some s) arg1 nul slot now
        = some (toInt32 (icalendar_next_time_from_string s arg1 slot now))) ∧
    (∀ (s : String) (arg1 : Option String) (nul : Bool) (slot now : Int),
      parseRecurrence s = none →
        sql_next_time_ical (some s) arg1 nul slot now = some 0) := by
  refine ⟨fun _ _ _ _ => rfl, fun _ _ _ _ _ => rfl, ?_⟩
  intro s arg1 nul slot now hp
  simp only [sql_next_time_ical, icalendar_next_time_from_string, hp]
  decide

/-- Claim C7, witness: a non-recurrence text does not parse, and the
operation on it returns the (truncated) numeric none-sentinel 0, with no
error. -/
theorem C7_witness :
    parseRecurrence "not a recurrence" = none ∧
    sql_next_time_ical (some "not a recurrence") none false 0 0 = some 0 :=
  ⟨rfl, C7_theorem.2.2 "not a recurrence" none false 0 0 rfl⟩

/-- Claim C9: for every matcher and every pair of arguments, a NULL in
either argument yields false, and with both present the result is exactly
the matcher's verdict on the first argument against the regular expression
given as the second argument. -/
theorem C9_theorem :
    (∀ (m : String → String → Bool) (b : Option String),
      sql_regexp m none b = false) ∧
    (∀ (m : String → String → Bool) (a : Option String),
      sql_regexp m a none = false) ∧
    (∀ (m : String → String → Bool) (s r : String),
      sql_regexp m (some s) (some r) = m r s) := by
  refine ⟨fun m b => ?_, fun m a => ?_, fun _ _ _ => rfl⟩
  · cases b <;> rfl
  · cases a <;> rfl

/-- Claim C10: the next-occurrence operation returns its instant as a
signed 32-bit integer: whenever the external occurrence instant lies
outside the int32 range, the returned timestamp is that instant reduced
modulo 2^32 (it is congruent to the true instant modulo 2^32 but differs
from it). -/
theorem C10_theorem (ical_string : String) (arg1 : Option String)
    (nul : Bool) (slot now t : Int)
    (ht : icalendar_next_time_from_string ical_string arg1 slot now = t)
    (hout : t < -(2 ^ 31) ∨ 2 ^ 31 ≤ t) :
    sql_next_time_ical (some ical_string) arg1 nul slot now
      = some (toInt32 t) ∧
    toInt32 t % 2 ^ 32 = t % 2 ^ 32 ∧
    toInt32 t ≠ t := by
  have e31 : (2 : Int) ^ 31 = 2147483648 := by norm_num
  have e32 : (2 : Int) ^ 32 = 4294967296 := by norm_num
  rw [e31] at hout
  refine ⟨?_, ?_, ?_⟩
  · show some (toInt32
        (icalendar_next_time_from_string ical_string arg1 slot now))
      = some (toInt32 t)
    rw [ht]
  · simp only [toInt32, e31, e32]
    omega
  · simp only [toInt32, e31, e32]
    omega

/-- Claim C10, witness: a recurrence starting at epoch instant
3000000000 (beyond the int32 range) with a daily period, queried at
reference instant 0, has true next occurrence 3000000000 but is returned
as −1294967296 = 3000000000 − 2^32. -/
theorem C10_witness :
    icalendar_next_time_from_string "3000000000;86400" none 0 0
      = 3000000000 ∧
    ((3000000000 : Int) < -(2 ^ 31) ∨ (2 : Int) ^ 31 ≤ 3000000000) ∧
    sql_next_time_ical (some "3000000000;86400") none false 0 0
      = some (toInt32 3000000000) ∧
    toInt32 3000000000 ≠ 3000000000 ∧
    toInt32 3000000000 = -1294967296 := by
  have h := C10_theorem "3000000000;86400" none false 0 0 3000000000
    (by decide) (Or.inr (by norm_num))
  exact ⟨by decide, Or.inr (by norm_num), h.1, h.2.2, by decide⟩
